import Mathlib

set_option maxRecDepth 100000

/-!
Verification of the binance-core-client signing and proxy-session core.

The development shallowly embeds `src/utils.py` (`Utils.generate_signature`)
and `src/proxy_manager.py` (`ProxyManager`) in Lean 4.

Modelling conventions:
* Python `dict[str, str]` parameters are modelled as association lists
  `List (String × String)` in insertion order (CPython dicts preserve
  insertion order, which is what `urllib.parse.urlencode` iterates over).
* Bytes are `Nat` values; words of SHA-256 are `Nat` reduced modulo `2^32`.
* The network is abstracted by a probe oracle `probe : Nat → Bool` giving
  the outcome of the k-th invocation of `ProxyManager._test_proxy`
  (0-based over the lifetime of a run).  The proxy-manager operations
  thread a ghost probe counter so that probe costs can be stated exactly.
* A bound `requests.Session` is modelled by the proxy configuration that
  `_set_proxy_for_session` writes into it, together with a ghost field
  recording the cursor value at the moment of binding.
-/

namespace BinanceCore

/-- A proxy descriptor, the dictionaries held in `ProxyManager.proxy_list`:
keys `type`, `address`, `port` are always present, `username` / `password`
are optional (`None`-free absence is modelled by `Option`). -/
structure ProxyInfo where
  ptype : String
  address : String
  port : Nat
  username : Option String
  password : Option String
  deriving Repr, DecidableEq

/-- Embedding of Python `str.lower()` for the ASCII scheme/type strings the
proxy manager lowercases (`'type'` values such as `SOCKS5`, `HTTP`). -/
def lowerAscii (s : String) : String := String.mk (s.data.map Char.toLower)

/-- The proxy URL written by `ProxyManager._set_proxy_for_session`
(lines 73–83 of `src/proxy_manager.py`): scheme is the lower-cased `type`;
`username:password@` is embedded exactly when both keys are present. -/
def proxyUrl (p : ProxyInfo) : String :=
  let scheme := lowerAscii p.ptype
  match p.username, p.password with
  | some u, some pw =>
      scheme ++ "://" ++ u ++ ":" ++ pw ++ "@" ++ p.address ++ ":" ++ toString p.port
  | _, _ =>
      scheme ++ "://" ++ p.address ++ ":" ++ toString p.port

/-- The observable effect of `_set_proxy_for_session` on the fresh
`requests.Session`: the `http` and `https` proxy entries, plus a ghost
record of the cursor at binding time. -/
structure Session where
  httpProxy : String
  httpsProxy : String
  boundIdx : Nat
  deriving Repr, DecidableEq

/-- Embedding of `ProxyManager._set_proxy_for_session proxy_info`: builds a new session
whose `http` and `https` proxies are both `proxyUrl proxy_info`; the ghost
field records the cursor `idx` current when it is called. -/
def set_proxy_for_session (p : ProxyInfo) (idx : Nat) : Session :=
  { httpProxy := proxyUrl p, httpsProxy := proxyUrl p, boundIdx := idx }

/-- The mutable state of a `ProxyManager` instance: `proxy_list`,
`proxy_index` (the cursor) and the optional `session`. -/
structure ProxyManager where
  proxy_list : List ProxyInfo
  proxy_index : Nat
  session : Option Session
  deriving Repr, DecidableEq

/-- Fallback descriptor used only to totalise list indexing; every indexing
in a reachable state is in bounds. -/
def defaultProxy : ProxyInfo :=
  { ptype := "http", address := "", port := 0, username := none, password := none }

/-- Embedding of `ProxyManager._rotate_proxy`: `proxy_index = (proxy_index + 1) % len(proxy_list)`. -/
def rotate_proxy (st : ProxyManager) : ProxyManager :=
  { st with proxy_index := (st.proxy_index + 1) % st.proxy_list.length }

/-- Loop body of `ProxyManager._get_session_with_working_proxy`
(`for _ in range(len(self.proxy_list))`), with the remaining iteration
count `fuel` made explicit.  `probe k` is the result of the k-th overall
`_test_proxy` call and `cnt` the number of probes already performed.
Returns (the function's return value, the post-state, the new probe count). -/
def acquireLoop (probe : Nat → Bool) : Nat → ProxyManager → Nat →
    Option Session × ProxyManager × Nat
  | 0, st, cnt => (none, st, cnt)
  | fuel + 1, st, cnt =>
      if probe cnt then
        let s := set_proxy_for_session
          (st.proxy_list.getD st.proxy_index defaultProxy) st.proxy_index
        (some s, { st with session := some s }, cnt + 1)
      else
        acquireLoop probe fuel (rotate_proxy st) (cnt + 1)

/-- Embedding of `ProxyManager._get_session_with_working_proxy`: probe up to
`len(proxy_list)` candidates starting at the cursor; bind and return on the
first success, return `None` after a full failed sweep. -/
def get_session_with_working_proxy (probe : Nat → Bool)
    (st : ProxyManager) (cnt : Nat) : Option Session × ProxyManager × Nat :=
  acquireLoop probe st.proxy_list.length st cnt

/-- Embedding of `ProxyManager.test_current_proxy`: if a session exists, probe the
descriptor at the current cursor and return `True` on success; otherwise
(no session, or the probe failed) assign
`session = _get_session_with_working_proxy()` and return whether it is set. -/
def test_current_proxy (probe : Nat → Bool)
    (st : ProxyManager) (cnt : Nat) : Bool × ProxyManager × Nat :=
  match st.session with
  | some _ =>
      if probe cnt then (true, st, cnt + 1)
      else
        let r := get_session_with_working_proxy probe st (cnt + 1)
        (r.1.isSome, { r.2.1 with session := r.1 }, r.2.2)
  | none =>
      let r := get_session_with_working_proxy probe st cnt
      (r.1.isSome, { r.2.1 with session := r.1 }, r.2.2)

/-- Embedding of `ProxyManager.get_working_session`: acquire when unbound; when bound,
run `test_current_proxy` and re-acquire if it reports failure; return
`self.session`. -/
def get_working_session (probe : Nat → Bool)
    (st : ProxyManager) (cnt : Nat) : Option Session × ProxyManager × Nat :=
  match st.session with
  | none =>
      let r := get_session_with_working_proxy probe st cnt
      (r.1, { r.2.1 with session := r.1 }, r.2.2)
  | some _ =>
      let t := test_current_proxy probe st cnt
      if t.1 then (t.2.1.session, t.2.1, t.2.2)
      else
        let r := get_session_with_working_proxy probe t.2.1 t.2.2
        (r.1, { r.2.1 with session := r.1 }, r.2.2)

/-- Embedding of `ProxyManager.initialize_session`: logs and delegates to
`get_working_session`. -/
def init_session (probe : Nat → Bool)
    (st : ProxyManager) (cnt : Nat) : Option Session × ProxyManager × Nat :=
  get_working_session probe st cnt

/-! ### The transport probe `ProxyManager._test_proxy`

The body of `_test_proxy` is one `try` block: build a `socks` socket, set
the proxy, connect to `("8.8.8.8", 53)` with a 5-second timeout, and
return `True`; any exception anywhere in the block is caught and turned
into `False`; an unsupported `type` string returns `False` without
attempting a connection.  The transport outcome of the connection attempt
is abstracted by `ConnectOutcome`. -/

/-- Possible outcomes of the underlying transport connect attempt to the
liveness target: completion within the timeout, a refusal, a timeout, or
any other raised exception. -/
inductive ConnectOutcome where
  | completed
  | refused
  | timedOut
  | raised (msg : String)
  deriving Repr, DecidableEq

/-- The membership test `proxy_info['type'].lower() in ['socks5', 'http', 'https']`. -/
def supportedType (ptype : String) : Bool :=
  lowerAscii ptype = "socks5" || lowerAscii ptype = "http" || lowerAscii ptype = "https"

/-- The `try` block of `_test_proxy`, as a fallible computation: `.error`
is a raised exception, `.ok b` a normal return of `b`. -/
def test_proxy_body (p : ProxyInfo) (out : ConnectOutcome) : Except String Bool :=
  if supportedType p.ptype then
    match out with
    | .completed => .ok true
    | .refused => .error "connection refused"
    | .timedOut => .error "timed out"
    | .raised m => .error m
  else
    .ok false

/-- Embedding of `ProxyManager._test_proxy`: the `try` block with its catch-all
`except Exception` handler that logs and returns `False`. -/
def test_proxy (p : ProxyInfo) (out : ConnectOutcome) : Bool :=
  match test_proxy_body p out with
  | .ok b => b
  | .error _ => false

/-! ### The signer `Utils.generate_signature`

`generate_signature(params, api_secret)` is
`hmac.new(api_secret.encode('utf-8'), urlencode(params).encode('utf-8'),
sha256).hexdigest()`.  The CPython library functions it calls —
`urllib.parse.urlencode` (with its default `quote_via=quote_plus`),
`str.encode('utf-8')`, `hmac` over `hashlib.sha256` and `.hexdigest()` —
are embedded below from their standard definitions. -/

/-- UTF-8 encoding of a single Unicode code point, as byte values. -/
def utf8Char (n : Nat) : List Nat :=
  if n < 128 then [n]
  else if n < 2048 then [192 + n / 64, 128 + n % 64]
  else if n < 65536 then [224 + n / 4096, 128 + n / 64 % 64, 128 + n % 64]
  else [240 + n / 262144, 128 + n / 4096 % 64, 128 + n / 64 % 64, 128 + n % 64]

/-- Embedding of `str.encode('utf-8')`: the UTF-8 bytes of a string. -/
def utf8 (s : String) : List Nat :=
  s.data.flatMap (fun c => utf8Char c.toNat)

/-- The sixteen lowercase hexadecimal digit characters, in value order. -/
def hexChars : List Char :=
  String.data "0123456789abcdef"

/-- The sixteen uppercase hexadecimal digit characters, in value order
(percent-encoding uses uppercase). -/
def hexCharsUpper : List Char :=
  String.data "0123456789ABCDEF"

/-- Two lowercase hex characters for one byte (`%02x`). -/
def byteHex (b : Nat) : List Char :=
  [hexChars.getD (b / 16) '0', hexChars.getD (b % 16) '0']

/-- Uppercase `%XX` percent-escape of one byte, uppercase as in `urllib.parse.quote`. -/
def percentEscape (b : Nat) : String :=
  String.mk ['%', hexCharsUpper.getD (b / 16) '0', hexCharsUpper.getD (b % 16) '0']

/-- The characters `urllib.parse.quote` never escapes: ASCII alphanumerics
and `_.-~`. -/
def safeByte (b : Nat) : Bool :=
  (48 ≤ b && b ≤ 57) || (65 ≤ b && b ≤ 90) || (97 ≤ b && b ≤ 122) ||
    b = 95 || b = 46 || b = 45 || b = 126

/-- One byte under `urllib.parse.quote_plus` with empty `safe`: space
becomes `+`, always-safe bytes stay themselves, everything else is
percent-escaped. -/
def quotePlusByte (b : Nat) : String :=
  if b = 32 then "+"
  else if safeByte b then String.singleton (Char.ofNat b)
  else percentEscape b

/-- Embedding of `urllib.parse.quote_plus(s)` (empty `safe`): escape the UTF-8 bytes of `s`. -/
def quotePlus (s : String) : String :=
  String.join ((utf8 s).map quotePlusByte)

/-- Embedding of `urllib.parse.urlencode(params)`: `quote_plus`-escaped `k=v` pairs in
the mapping's insertion order, joined by `&`. -/
def urlencode (params : List (String × String)) : String :=
  String.intercalate "&"
    (params.map (fun kv => quotePlus kv.1 ++ "=" ++ quotePlus kv.2))

/-! #### SHA-256, from FIPS 180-4 (the semantics of `hashlib.sha256`). -/

/-- Truncation to a 32-bit word. -/
def w32 (x : Nat) : Nat := x % 4294967296

/-- Right rotation of a 32-bit word by `n` bits. -/
def rotr (n x : Nat) : Nat := w32 ((x >>> n) ||| (x <<< (32 - n)))

/-- Bitwise complement of a 32-bit word. -/
def wnot (x : Nat) : Nat := 4294967295 ^^^ w32 x

/-- The eight 32-bit words of the SHA-256 working state. -/
structure H8 where
  a : Nat
  b : Nat
  c : Nat
  d : Nat
  e : Nat
  f : Nat
  g : Nat
  h : Nat
  deriving Repr, DecidableEq

/-- SHA-256 initial hash value. -/
def sha256Init : H8 :=
  ⟨1779033703, 3144134277, 1013904242, 2773480762,
   1359893119, 2600822924, 528734635, 1541459225⟩

/-- SHA-256 round constants. -/
def sha256K : List Nat :=
  [1116352408, 1899447441, 3049323471, 3921009573, 961987163,
   1508970993, 2453635748, 2870763221, 3624381080, 310598401,
   607225278, 1426881987, 1925078388, 2162078206, 2614888103,
   3248222580, 3835390401, 4022224774, 264347078, 604807628,
   770255983, 1249150122, 1555081692, 1996064986, 2554220882,
   2821834349, 2952996808, 3210313671, 3336571891, 3584528711,
   113926993, 338241895, 666307205, 773529912, 1294757372,
   1396182291, 1695183700, 1986661051, 2177026350, 2456956037,
   2730485921, 2820302411, 3259730800, 3345764771, 3516065817,
   3600352804, 4094571909, 275423344, 430227734, 506948616,
   659060556, 883997877, 958139571, 1322822218, 1537002063,
   1747873779, 1955562222, 2024104815, 2227730452, 2361852424,
   2428436474, 2756734187, 3204031479, 3329325298]

/-- Big-endian 32-bit words from a list of bytes. -/
def toWords : List Nat → List Nat
  | b0 :: b1 :: b2 :: b3 :: rest =>
      (b0 * 16777216 + b1 * 65536 + b2 * 256 + b3) :: toWords rest
  | _ => []

/-- Message-schedule small sigma 0. -/
def ssig0 (x : Nat) : Nat := rotr 7 x ^^^ rotr 18 x ^^^ (x >>> 3)

/-- Message-schedule small sigma 1. -/
def ssig1 (x : Nat) : Nat := rotr 17 x ^^^ rotr 19 x ^^^ (x >>> 10)

/-- Extend the 16-word schedule by `fuel` further words
(`W[i] = ssig1 W[i-2] + W[i-7] + ssig0 W[i-15] + W[i-16]`). -/
def extendSchedule : Nat → List Nat → List Nat
  | 0, w => w
  | fuel + 1, w =>
      let n := w.length
      let nw := w32 (ssig1 (w.getD (n - 2) 0) + w.getD (n - 7) 0 +
        ssig0 (w.getD (n - 15) 0) + w.getD (n - 16) 0)
      extendSchedule fuel (w ++ [nw])

/-- One SHA-256 compression round for round constant `k` and schedule word `wi`. -/
def sha256Round (s : H8) (k : Nat) (wi : Nat) : H8 :=
  let bs1 := rotr 6 s.e ^^^ rotr 11 s.e ^^^ rotr 25 s.e
  let ch := (s.e &&& s.f) ^^^ (wnot s.e &&& s.g)
  let t1 := w32 (s.h + bs1 + ch + k + wi)
  let bs0 := rotr 2 s.a ^^^ rotr 13 s.a ^^^ rotr 22 s.a
  let mj := (s.a &&& s.b) ^^^ (s.a &&& s.c) ^^^ (s.b &&& s.c)
  let t2 := w32 (bs0 + mj)
  ⟨w32 (t1 + t2), s.a, s.b, s.c, w32 (s.d + t1), s.e, s.f, s.g⟩

/-- Run the 64 compression rounds over paired constants and schedule words. -/
def sha256Rounds : List (Nat × Nat) → H8 → H8
  | [], s => s
  | kw :: rest, s => sha256Rounds rest (sha256Round s kw.1 kw.2)

/-- Compress one 64-byte block into the running hash. -/
def sha256Compress (hs : H8) (block : List Nat) : H8 :=
  let w := extendSchedule 48 (toWords block)
  let r := sha256Rounds (sha256K.zip w) hs
  ⟨w32 (hs.a + r.a), w32 (hs.b + r.b), w32 (hs.c + r.c), w32 (hs.d + r.d),
   w32 (hs.e + r.e), w32 (hs.f + r.f), w32 (hs.g + r.g), w32 (hs.h + r.h)⟩

/-- The eight length bytes of SHA-256 padding: the bit length, big-endian. -/
def lenBytes (n : Nat) : List Nat :=
  [n / 72057594037927936 % 256, n / 281474976710656 % 256,
   n / 1099511627776 % 256, n / 4294967296 % 256,
   n / 16777216 % 256, n / 65536 % 256, n / 256 % 256, n % 256]

/-- SHA-256 padding: `0x80`, zeros to 56 mod 64, then the 64-bit bit length. -/
def sha256Pad (msg : List Nat) : List Nat :=
  msg ++ [128] ++ List.replicate ((119 - msg.length % 64) % 64) 0 ++
    lenBytes (8 * msg.length)

/-- Split a byte list into 64-byte blocks (`fuel` bounds the recursion;
called with `fuel = l.length`, always sufficient). -/
def blocks64 : Nat → List Nat → List (List Nat)
  | _, [] => []
  | 0, _ => []
  | fuel + 1, l => l.take 64 :: blocks64 fuel (l.drop 64)

/-- Big-endian bytes of one 32-bit word. -/
def wordBytes (w : Nat) : List Nat :=
  [w / 16777216 % 256, w / 65536 % 256, w / 256 % 256, w % 256]

/-- The 32 digest bytes of a final hash state. -/
def h8Bytes (s : H8) : List Nat :=
  wordBytes s.a ++ wordBytes s.b ++ wordBytes s.c ++ wordBytes s.d ++
    wordBytes s.e ++ wordBytes s.f ++ wordBytes s.g ++ wordBytes s.h

/-- Embedding of `hashlib.sha256(msg).digest()`: the 32-byte SHA-256 digest of `msg`. -/
def sha256 (msg : List Nat) : List Nat :=
  let padded := sha256Pad msg
  h8Bytes ((blocks64 padded.length padded).foldl sha256Compress sha256Init)

/-- Rendering of `.hexdigest()`: a byte list rendered as lowercase hexadecimal. -/
def hexdigest (bs : List Nat) : String :=
  String.mk (bs.flatMap byteHex)

/-- HMAC-SHA256 (RFC 2104) over byte lists, block size 64. -/
def hmacSha256 (key msg : List Nat) : List Nat :=
  let k0 := if 64 < key.length then sha256 key else key
  let k1 := k0 ++ List.replicate (64 - k0.length) 0
  let ipad := k1.map (fun b => (b ^^^ 54) % 256)
  let opad := k1.map (fun b => (b ^^^ 92) % 256)
  sha256 (opad ++ sha256 (ipad ++ msg))

/-- Embedding of `Utils.generate_signature(params, api_secret)`
(`src/utils.py`, lines 27–37): the lowercase-hex HMAC-SHA256 of
`urlencode(params)` keyed by `api_secret`, both UTF-8 encoded. -/
def generate_signature (params : List (String × String)) (api_secret : String) : String :=
  let query_string := urlencode params
  hexdigest (hmacSha256 (utf8 api_secret) (utf8 query_string))

/-! ### Derived notions and concrete states used by the claims -/

/-- Session–cursor coupling invariant of the pool: whenever a session is
present it is exactly the session `_set_proxy_for_session` builds from the
descriptor currently at the cursor, with the binding-time cursor (the
ghost `boundIdx`) equal to the current cursor. -/
def SessionInv (st : ProxyManager) : Prop :=
  ∀ s, st.session = some s →
    s = set_proxy_for_session
      (st.proxy_list.getD st.proxy_index defaultProxy) st.proxy_index

/-- Concrete session bound to `defaultProxy` at cursor 0, for witnesses. -/
def sess0 : Session := set_proxy_for_session defaultProxy 0

/-- Concrete bound pool with two candidates, for witnesses. -/
def pmB : ProxyManager :=
  { proxy_list := [defaultProxy, defaultProxy], proxy_index := 0, session := some sess0 }

/-- Concrete bound pool with one candidate, for witnesses. -/
def pmB1 : ProxyManager :=
  { proxy_list := [defaultProxy], proxy_index := 0, session := some sess0 }

/-- Concrete unbound pool with two candidates, for witnesses. -/
def pmU : ProxyManager :=
  { proxy_list := [defaultProxy, defaultProxy], proxy_index := 0, session := none }

/-- Concrete unbound pool with three candidates, for witnesses. -/
def pm3 : ProxyManager :=
  { proxy_list := [defaultProxy, defaultProxy, defaultProxy], proxy_index := 0,
    session := none }

/-- Concrete descriptor carrying both credentials, for witnesses. -/
def proxyCred : ProxyInfo :=
  { ptype := "SOCKS5", address := "host", port := 1080,
    username := some "u", password := some "pw" }

/-- Concrete descriptor carrying a username but no password, for witnesses. -/
def proxyNoCred : ProxyInfo :=
  { ptype := "http", address := "host", port := 8080,
    username := some "u", password := none }

/-! ### Helper lemmas about the signer -/

/-- SHA-256 always emits exactly 32 bytes. -/
lemma sha256_length (msg : List Nat) : (sha256 msg).length = 32 := rfl

/-- HMAC-SHA256 always emits exactly 32 bytes. -/
lemma hmacSha256_length (key msg : List Nat) : (hmacSha256 key msg).length = 32 :=
  sha256_length _

/-- Hex rendering doubles the byte count. -/
lemma length_flatMap_byteHex (bs : List Nat) :
    (bs.flatMap byteHex).length = 2 * bs.length := by
  induction bs with
  | nil => rfl
  | cons b t ih => simp [byteHex, ih]; omega

/-- Hexdigest of a byte list has twice its length in characters. -/
lemma hexdigest_length (bs : List Nat) : (hexdigest bs).length = 2 * bs.length :=
  length_flatMap_byteHex bs

/-- Indexing with a fallback lands in the list or returns the fallback. -/
lemma getD_mem_or_eq (l : List Char) (i : Nat) (d : Char) :
    l.getD i d ∈ l ∨ l.getD i d = d := by
  induction l generalizing i with
  | nil => right; simp [List.getD]
  | cons a t ih =>
      cases i with
      | zero => left; simp [List.getD_cons_zero]
      | succ n =>
          rcases ih n with h | h
          · left; rw [List.getD_cons_succ]; exact List.mem_cons_of_mem _ h
          · right; rw [List.getD_cons_succ]; exact h

/-- Both characters emitted for one byte are lowercase hex digits. -/
lemma byteHex_subset (b : Nat) : ∀ c ∈ byteHex b, c ∈ hexChars := by
  intro c hc
  simp only [byteHex, List.mem_cons, List.not_mem_nil, or_false] at hc
  rcases hc with rfl | rfl
  · rcases getD_mem_or_eq hexChars (b / 16) '0' with h | h
    · exact h
    · rw [h]; decide
  · rcases getD_mem_or_eq hexChars (b % 16) '0' with h | h
    · exact h
    · rw [h]; decide

/-- Every character of a hexdigest is a lowercase hex digit. -/
lemma hexdigest_chars (bs : List Nat) : ∀ c ∈ (hexdigest bs).data, c ∈ hexChars := by
  intro c hc
  have hm : c ∈ bs.flatMap byteHex := hc
  rw [List.mem_flatMap] at hm
  obtain ⟨b, _, hb⟩ := hm
  exact byteHex_subset b c hb

/-! ### Claims about the signer -/

/-- C5: for every params mapping (including the empty mapping) and every
secret key, `generate_signature` returns the HMAC-SHA256 — a 256-bit
digest, hence 64 hex characters — of the URL-encoded query string built
from the params list in insertion order, keyed by the secret and rendered
as lowercase hexadecimal. -/
theorem sign_canonical (params : List (String × String)) (api_secret : String) :
    generate_signature params api_secret =
      hexdigest (hmacSha256 (utf8 api_secret) (utf8 (urlencode params))) ∧
    (generate_signature params api_secret).length = 64 ∧
    ∀ c ∈ (generate_signature params api_secret).data, c ∈ hexChars := by
  have h : generate_signature params api_secret =
      hexdigest (hmacSha256 (utf8 api_secret) (utf8 (urlencode params))) := rfl
  refine ⟨h, ?_, ?_⟩
  · rw [h, hexdigest_length, hmacSha256_length]
  · intro c hc
    exact hexdigest_chars _ c (h ▸ hc)

/-- Witness for C5 at a concrete mapping: 64 characters, and the concrete
first digest character is a hex digit. -/
theorem sign_canonical_witness :
    (generate_signature [("a", "1")] "k").length = 64 ∧ '3' ∈ hexChars :=
  ⟨(sign_canonical [("a", "1")] "k").2.1,
   (sign_canonical [("a", "1")] "k").2.2 '3' (by decide)⟩

/-- C9: any two invocations of `generate_signature` on the same params
list (same insertion order) and the same secret return identical digests —
the embedding is a pure function of its two arguments. -/
theorem sign_deterministic (p₁ p₂ : List (String × String)) (s₁ s₂ : String)
    (hp : p₁ = p₂) (hs : s₁ = s₂) :
    generate_signature p₁ s₁ = generate_signature p₂ s₂ := by
  rw [hp, hs]

/-- Witness for C9 at the spec's own example parameters. -/
theorem sign_deterministic_witness :
    generate_signature
        [("symbol", "BTCUSDT"), ("side", "BUY"), ("timestamp", "1700000000000")] "abc" =
      generate_signature
        [("symbol", "BTCUSDT"), ("side", "BUY"), ("timestamp", "1700000000000")] "abc" :=
  sign_deterministic _ _ _ _ rfl rfl

/-- C1 counterexample: on a params mapping that already contains the key
`signature`, `generate_signature` does not raise anything — the source has
no precondition check — and returns the ordinary digest of the query
string `signature=abc`. -/
theorem sign_ignores_existing_signature_key :
    generate_signature [("signature", "abc")] "key" =
      "87652d73cf2754838c99d58091a1ae66acbd0c0da3b036944bfb8ad636c90d2b" := by
  rfl

/-- C1 (amended): for every params mapping that already contains the key
`signature` and every secret, `generate_signature` performs no
precondition check and returns the ordinary 64-character HMAC-SHA256
digest of the URL-encoded query string, the existing signature pair
included, instead of raising an error. -/
theorem sign_with_signature_key_returns_digest (params : List (String × String))
    (api_secret : String) (_hsig : "signature" ∈ params.map Prod.fst) :
    generate_signature params api_secret =
      hexdigest (hmacSha256 (utf8 api_secret) (utf8 (urlencode params))) ∧
    (generate_signature params api_secret).length = 64 := by
  have h : generate_signature params api_secret =
      hexdigest (hmacSha256 (utf8 api_secret) (utf8 (urlencode params))) := rfl
  exact ⟨h, by rw [h, hexdigest_length, hmacSha256_length]⟩

/-- Witness for the amended C1 at the concrete mapping `{signature: abc}`. -/
theorem sign_with_signature_key_returns_digest_witness :
    "signature" ∈ ([("signature", "abc")] : List (String × String)).map Prod.fst ∧
    (generate_signature [("signature", "abc")] "key").length = 64 :=
  ⟨by decide,
   (sign_with_signature_key_returns_digest [("signature", "abc")] "key" (by decide)).2⟩

/-! ### Helper lemmas about the failover sweep -/

/-- Rotation never touches the stored session. -/
lemma rotate_session (st : ProxyManager) : (rotate_proxy st).session = st.session := rfl

/-- Rotation never touches the candidate list. -/
lemma rotate_list (st : ProxyManager) : (rotate_proxy st).proxy_list = st.proxy_list := rfl

/-- The sweep loop performs at most `fuel` probes. -/
lemma acquireLoop_cnt_le (probe : Nat → Bool) :
    ∀ (fuel : Nat) (st : ProxyManager) (cnt : Nat),
      (acquireLoop probe fuel st cnt).2.2 ≤ cnt + fuel := by
  intro fuel
  induction fuel with
  | zero => intro st cnt; simp [acquireLoop]
  | succ n ih =>
      intro st cnt
      by_cases h : probe cnt
      · simp [acquireLoop, h]
      · simp only [acquireLoop, h, if_neg, Bool.false_eq_true, if_false]
        exact (ih (rotate_proxy st) (cnt + 1)).trans (by omega)

/-- The sweep loop preserves the candidate list, leaves the session
unchanged when it fails, and on success stores a session built by
`set_proxy_for_session` from the descriptor at the final cursor. -/
lemma acquireLoop_spec (probe : Nat → Bool) :
    ∀ (fuel : Nat) (st : ProxyManager) (cnt : Nat),
      (acquireLoop probe fuel st cnt).2.1.proxy_list = st.proxy_list ∧
      ((acquireLoop probe fuel st cnt).1 = none →
        (acquireLoop probe fuel st cnt).2.1.session = st.session) ∧
      (∀ s, (acquireLoop probe fuel st cnt).1 = some s →
        (acquireLoop probe fuel st cnt).2.1.session = some s ∧
        s = set_proxy_for_session
          ((acquireLoop probe fuel st cnt).2.1.proxy_list.getD
            (acquireLoop probe fuel st cnt).2.1.proxy_index defaultProxy)
          (acquireLoop probe fuel st cnt).2.1.proxy_index) := by
  intro fuel
  induction fuel with
  | zero =>
      intro st cnt
      refine ⟨rfl, fun _ => rfl, ?_⟩
      intro s hs
      exact Option.noConfusion hs
  | succ n ih =>
      intro st cnt
      by_cases h : probe cnt
      · refine ⟨?_, ?_, ?_⟩
        · simp [acquireLoop, h]
        · intro hs
          simp [acquireLoop, h] at hs
        · intro s hs
          simp only [acquireLoop, h, if_pos] at hs ⊢
          cases hs
          exact ⟨rfl, rfl⟩
      · have hrec := ih (rotate_proxy st) (cnt + 1)
        simp only [acquireLoop, h, Bool.false_eq_true, if_false] at hrec ⊢
        exact ⟨hrec.1.trans (rotate_list st),
          fun hn => (hrec.2.1 hn).trans (rotate_session st), hrec.2.2⟩

/-- A sweep whose probes all fail returns `none`, leaves the session and
the list unchanged, and performs exactly `fuel` probes. -/
lemma acquireLoop_all_fail (probe : Nat → Bool) :
    ∀ (fuel : Nat) (st : ProxyManager) (cnt : Nat),
      (∀ j, j < fuel → probe (cnt + j) = false) →
      (acquireLoop probe fuel st cnt).1 = none ∧
      (acquireLoop probe fuel st cnt).2.1.session = st.session ∧
      (acquireLoop probe fuel st cnt).2.1.proxy_list = st.proxy_list ∧
      (acquireLoop probe fuel st cnt).2.2 = cnt + fuel := by
  intro fuel
  induction fuel with
  | zero => intro st cnt _; exact ⟨rfl, rfl, rfl, rfl⟩
  | succ n ih =>
      intro st cnt hf
      have h0 : probe cnt = false := by simpa using hf 0 (Nat.succ_pos n)
      have hrec := ih (rotate_proxy st) (cnt + 1) (fun j hj => by
        have hx := hf (j + 1) (by omega)
        have harg : cnt + (j + 1) = cnt + 1 + j := by omega
        rwa [harg] at hx)
      simp only [acquireLoop, h0, Bool.false_eq_true, if_false]
      refine ⟨hrec.1, hrec.2.1.trans (rotate_session st),
        hrec.2.2.1.trans (rotate_list st), ?_⟩
      rw [hrec.2.2.2]
      omega

/-- A sweep started at cursor `j` with probe counter `j`, probing the rest
of the list, where the probes answer true exactly at `k` (with
`j ≤ k < j + fuel`), stops at `k`: it performs probes `j .. k`, ends at
cursor `k` and binds the descriptor at `k`. -/
lemma acquireLoop_find (probe : Nat → Bool) (k : Nat) :
    ∀ (fuel j : Nat) (st : ProxyManager),
      st.proxy_list.length = j + fuel →
      st.proxy_index = j →
      j ≤ k → k < j + fuel →
      (∀ i, i < j + fuel → probe i = decide (i = k)) →
      acquireLoop probe fuel st j =
        (some (set_proxy_for_session (st.proxy_list.getD k defaultProxy) k),
         { st with proxy_index := k,
                   session := some (set_proxy_for_session
                     (st.proxy_list.getD k defaultProxy) k) },
         k + 1) := by
  intro fuel
  induction fuel with
  | zero => intro j st _ _ hjk hk _; omega
  | succ n ih =>
      intro j st hlen hidx hjk hk hp
      by_cases hjeq : j = k
      · subst hjeq
        have hpj : probe j = true := by simpa using hp j (by omega)
        simp only [acquireLoop, hpj, if_pos, hidx]
      · have hjlt : j < k := Nat.lt_of_le_of_ne hjk hjeq
        have hpj : probe j = false := by
          have hx := hp j (by omega)
          simp [hjeq] at hx
          exact hx
        have hrec := ih (j + 1) (rotate_proxy st)
          (by rw [rotate_list]; omega)
          (by
            have : (rotate_proxy st).proxy_index = (j + 1) % st.proxy_list.length := by
              simp [rotate_proxy, hidx]
            rw [this, hlen]
            exact Nat.mod_eq_of_lt (by omega))
          (by omega) (by omega)
          (fun i hi => hp i (by omega))
        simp only [acquireLoop, hpj, Bool.false_eq_true, if_false]
        rw [hrec]
        rfl

/-- Binding inside or right after a sweep restores the session–cursor
invariant: the state all callers build, `sweep post-state with the sweep's
return value stored as the session`, satisfies `SessionInv`. -/
lemma assign_inv (probe : Nat → Bool) (fuel : Nat) (st : ProxyManager) (cnt : Nat) :
    SessionInv { (acquireLoop probe fuel st cnt).2.1 with
                   session := (acquireLoop probe fuel st cnt).1 } := by
  intro s hs
  exact ((acquireLoop_spec probe fuel st cnt).2.2 s hs).2

/-! ### Claims about the failover state machine -/

/-- C3: in a pool whose probes answer true exactly at index `k` (sweep
started with cursor 0 and probe counter 0, so the i-th probe of the sweep
tests descriptor i), `_get_session_with_working_proxy` performs `k + 1 ≤ N`
probes, ends with the cursor at `k`, and returns a session bound to the
descriptor at index `k`. -/
theorem acquire_rotation_correct (probe : Nat → Bool) (st : ProxyManager) (k : Nat)
    (hidx : st.proxy_index = 0) (hk : k < st.proxy_list.length)
    (hp : ∀ i, i < st.proxy_list.length → probe i = decide (i = k)) :
    get_session_with_working_proxy probe st 0 =
      (some (set_proxy_for_session (st.proxy_list.getD k defaultProxy) k),
       { st with proxy_index := k,
                 session := some (set_proxy_for_session
                   (st.proxy_list.getD k defaultProxy) k) },
       k + 1) ∧
    k + 1 ≤ st.proxy_list.length := by
  refine ⟨?_, by omega⟩
  exact acquireLoop_find probe k st.proxy_list.length 0 st (by omega) hidx
    (by omega) (by omega) (fun i hi => hp i (by omega))

/-- Witness for C3: pool of three candidates, only index 1 alive. -/
theorem acquire_rotation_correct_witness :
    get_session_with_working_proxy (fun i => decide (i = 1)) pm3 0 =
      (some (set_proxy_for_session (pm3.proxy_list.getD 1 defaultProxy) 1),
       { pm3 with proxy_index := 1,
                  session := some (set_proxy_for_session
                    (pm3.proxy_list.getD 1 defaultProxy) 1) },
       2) ∧
    2 ≤ pm3.proxy_list.length :=
  acquire_rotation_correct (fun i => decide (i = 1)) pm3 1 rfl (by decide)
    (fun i _ => rfl)

/-- C4: when every probe fails, `_get_session_with_working_proxy` returns
`None` after exactly `N = len(proxy_list)` probes and does not set a
session — a pool that was unbound stays unbound. -/
theorem acquire_all_dead (probe : Nat → Bool) (st : ProxyManager) (cnt : Nat)
    (hub : st.session = none) (hfail : ∀ i, probe i = false) :
    (get_session_with_working_proxy probe st cnt).1 = none ∧
    (get_session_with_working_proxy probe st cnt).2.1.session = none ∧
    (get_session_with_working_proxy probe st cnt).2.2 = cnt + st.proxy_list.length := by
  have h := acquireLoop_all_fail probe st.proxy_list.length st cnt (fun j _ => hfail _)
  exact ⟨h.1, h.2.1.trans hub, h.2.2.2⟩

/-- Witness for C4: unbound pool of two candidates, all probes dead. -/
theorem acquire_all_dead_witness :
    (get_session_with_working_proxy (fun _ => false) pmU 0).1 = none ∧
    (get_session_with_working_proxy (fun _ => false) pmU 0).2.1.session = none ∧
    (get_session_with_working_proxy (fun _ => false) pmU 0).2.2 =
      0 + pmU.proxy_list.length :=
  acquire_all_dead (fun _ => false) pmU 0 rfl (fun _ => rfl)

/-- C2 counterexample: bound pool of 2 candidates whose bound proxy and all
candidates are dead — one `get_working_session` call performs 5 probes
(the freshness probe plus two full sweeps), exceeding the claimed
`1 + N = 3` bound. -/
theorem get_working_session_two_sweeps :
    (get_working_session (fun _ => false) pmB 0).2.2 = 5 ∧
    ¬ (5 ≤ 1 + pmB.proxy_list.length) :=
  ⟨rfl, by decide⟩

/-- Reduction of `get_working_session` on a bound pool whose freshness
probe fails: the call becomes a first sweep inside `test_current_proxy`
and, when that sweep returns `None`, a second sweep. -/
lemma gws_bound_dead_eq (probe : Nat → Bool) (st : ProxyManager) (s : Session)
    (hb : st.session = some s) (h0 : probe 0 = false) :
    get_working_session probe st 0 =
      (if (acquireLoop probe st.proxy_list.length st 1).1.isSome then
        ((acquireLoop probe st.proxy_list.length st 1).1,
         { (acquireLoop probe st.proxy_list.length st 1).2.1 with
             session := (acquireLoop probe st.proxy_list.length st 1).1 },
         (acquireLoop probe st.proxy_list.length st 1).2.2)
      else
        ((acquireLoop probe
            (acquireLoop probe st.proxy_list.length st 1).2.1.proxy_list.length
            { (acquireLoop probe st.proxy_list.length st 1).2.1 with
                session := (acquireLoop probe st.proxy_list.length st 1).1 }
            (acquireLoop probe st.proxy_list.length st 1).2.2).1,
         { (acquireLoop probe
              (acquireLoop probe st.proxy_list.length st 1).2.1.proxy_list.length
              { (acquireLoop probe st.proxy_list.length st 1).2.1 with
                  session := (acquireLoop probe st.proxy_list.length st 1).1 }
              (acquireLoop probe st.proxy_list.length st 1).2.2).2.1 with
             session := (acquireLoop probe
               (acquireLoop probe st.proxy_list.length st 1).2.1.proxy_list.length
               { (acquireLoop probe st.proxy_list.length st 1).2.1 with
                   session := (acquireLoop probe st.proxy_list.length st 1).1 }
               (acquireLoop probe st.proxy_list.length st 1).2.2).1 },
         (acquireLoop probe
            (acquireLoop probe st.proxy_list.length st 1).2.1.proxy_list.length
            { (acquireLoop probe st.proxy_list.length st 1).2.1 with
                session := (acquireLoop probe st.proxy_list.length st 1).1 }
            (acquireLoop probe st.proxy_list.length st 1).2.2).2.2)) := by
  simp only [get_working_session, test_current_proxy, get_session_with_working_proxy,
    hb, h0, Bool.false_eq_true, if_false]

/-- C2 (amended): on a bound pool whose freshness probe fails, one
`get_working_session` call performs at most `1 + 2N` probes, not `1 + N`:
the freshness probe, the failover sweep run inside `test_current_proxy`,
and — only when that sweep exhausts all candidates — a second full sweep.
With every candidate dead the call performs exactly `1 + 2N` probes and
returns `None` with the pool unbound. -/
theorem get_working_session_probe_budget (probe : Nat → Bool) (st : ProxyManager)
    (s : Session) (hb : st.session = some s) (h0 : probe 0 = false) :
    (get_working_session probe st 0).2.2 ≤ 1 + 2 * st.proxy_list.length ∧
    ((∀ i, probe i = false) →
      (get_working_session probe st 0).2.2 = 1 + 2 * st.proxy_list.length ∧
      (get_working_session probe st 0).1 = none ∧
      (get_working_session probe st 0).2.1.session = none) := by
  rw [gws_bound_dead_eq probe st s hb h0]
  constructor
  · by_cases hsome : (acquireLoop probe st.proxy_list.length st 1).1.isSome = true
    · simp only [hsome, if_pos]
      have h1 := acquireLoop_cnt_le probe st.proxy_list.length st 1
      omega
    · simp only [hsome, Bool.false_eq_true, if_false]
      have h1 := acquireLoop_cnt_le probe st.proxy_list.length st 1
      have hlen : (acquireLoop probe st.proxy_list.length st 1).2.1.proxy_list.length =
          st.proxy_list.length := by
        rw [(acquireLoop_spec probe st.proxy_list.length st 1).1]
      have h2 := acquireLoop_cnt_le probe
        (acquireLoop probe st.proxy_list.length st 1).2.1.proxy_list.length
        { (acquireLoop probe st.proxy_list.length st 1).2.1 with
            session := (acquireLoop probe st.proxy_list.length st 1).1 }
        (acquireLoop probe st.proxy_list.length st 1).2.2
      exact h2.trans (by omega)
  · intro hall
    have hfail1 := acquireLoop_all_fail probe st.proxy_list.length st 1
      (fun j _ => hall _)
    have hsome : (acquireLoop probe st.proxy_list.length st 1).1.isSome = false := by
      rw [hfail1.1]
      rfl
    simp only [hsome, Bool.false_eq_true, if_false]
    have hfail2 := acquireLoop_all_fail probe
      (acquireLoop probe st.proxy_list.length st 1).2.1.proxy_list.length
      { (acquireLoop probe st.proxy_list.length st 1).2.1 with
          session := (acquireLoop probe st.proxy_list.length st 1).1 }
      (acquireLoop probe st.proxy_list.length st 1).2.2
      (fun j _ => hall _)
    refine ⟨?_, hfail2.1, ?_⟩
    · rw [hfail2.2.2.2, (acquireLoop_spec probe st.proxy_list.length st 1).1,
        hfail1.2.2.2]
      omega
    · exact hfail2.1

/-- Witness for the amended C2: bound pool of two candidates, every probe
dead — the call performs exactly `1 + 2 * 2 = 5` probes. -/
theorem get_working_session_probe_budget_witness :
    (get_working_session (fun _ => false) pmB 0).2.2 =
      1 + 2 * pmB.proxy_list.length :=
  ((get_working_session_probe_budget (fun _ => false) pmB sess0 rfl rfl).2
    (fun _ => rfl)).1

/-- C6: the session–cursor invariant `SessionInv` — a present session is
the one constructed from the descriptor at the cursor at binding time, and
the cursor has not moved away from it — is preserved by every public
operation: `get_working_session`, `test_current_proxy` and
`initialize_session`.  Mid-sweep rotations happen only inside calls; at
every operation boundary the stale session has been discarded or rebound. -/
theorem session_cursor_invariant (probe : Nat → Bool) (st : ProxyManager) (cnt : Nat)
    (hinv : SessionInv st) :
    SessionInv (get_working_session probe st cnt).2.1 ∧
    SessionInv (test_current_proxy probe st cnt).2.1 ∧
    SessionInv (init_session probe st cnt).2.1 := by
  have htcp : SessionInv (test_current_proxy probe st cnt).2.1 := by
    cases hs : st.session with
    | none =>
        simpa [test_current_proxy, get_session_with_working_proxy, hs] using
          assign_inv probe st.proxy_list.length st cnt
    | some s =>
        by_cases hprobe : probe cnt = true
        · simpa [test_current_proxy, hs, hprobe] using hinv
        · have hprobe' : probe cnt = false := by
            cases h : probe cnt
            · rfl
            · exact absurd h hprobe
          simpa [test_current_proxy, get_session_with_working_proxy, hs, hprobe'] using
            assign_inv probe st.proxy_list.length st (cnt + 1)
  have hgws : SessionInv (get_working_session probe st cnt).2.1 := by
    cases hs : st.session with
    | none =>
        simpa [get_working_session, get_session_with_working_proxy, hs] using
          assign_inv probe st.proxy_list.length st cnt
    | some s =>
        by_cases ht : (test_current_proxy probe st cnt).1 = true
        · simpa [get_working_session, hs, ht] using htcp
        · have ht' : (test_current_proxy probe st cnt).1 = false := by
            cases h : (test_current_proxy probe st cnt).1
            · rfl
            · exact absurd h ht
          simpa [get_working_session, get_session_with_working_proxy, hs, ht'] using
            assign_inv probe
              (test_current_proxy probe st cnt).2.1.proxy_list.length
              (test_current_proxy probe st cnt).2.1
              (test_current_proxy probe st cnt).2.2
  exact ⟨hgws, htcp, hgws⟩

/-- Witness for C6 on a concrete unbound pool (where the invariant holds
vacuously before the call). -/
theorem session_cursor_invariant_witness :
    SessionInv (get_working_session (fun _ => true) pmU 0).2.1 :=
  (session_cursor_invariant (fun _ => true) pmU 0
    (fun _ h => Option.noConfusion h)).1

/-- C7: on a bound pool whose bound proxy probes live on both calls,
calling `get_working_session` twice returns the same session value both
times with the pool state unchanged (no rebinding), while each call
consumes exactly one freshness probe. -/
theorem get_working_session_reuse (probe : Nat → Bool) (st : ProxyManager)
    (s : Session) (hb : st.session = some s) (h0 : probe 0 = true)
    (h1 : probe 1 = true) :
    get_working_session probe st 0 = (some s, st, 1) ∧
    get_working_session probe st 1 = (some s, st, 2) := by
  constructor
  · simp [get_working_session, test_current_proxy, hb, h0]
  · simp [get_working_session, test_current_proxy, hb, h1]

/-- Witness for C7: bound single-candidate pool with a live proxy. -/
theorem get_working_session_reuse_witness :
    get_working_session (fun _ => true) pmB1 0 = (some sess0, pmB1, 1) ∧
    get_working_session (fun _ => true) pmB1 1 = (some sess0, pmB1, 2) :=
  get_working_session_reuse (fun _ => true) pmB1 sess0 rfl rfl rfl

/-- C8: `_test_proxy` is total over every transport behaviour — it returns
`true` exactly when the proxy type is supported and the connection to the
liveness target completes within the timeout, and every exception the
`try` block raises (refusal, timeout, or any other error) is caught and
mapped to `false`, never propagated. -/
theorem probe_total_iff (p : ProxyInfo) (out : ConnectOutcome) :
    (test_proxy p out = true ↔
      supportedType p.ptype = true ∧ out = ConnectOutcome.completed) ∧
    (∀ e, test_proxy_body p out = Except.error e → test_proxy p out = false) := by
  constructor
  · cases hsupp : supportedType p.ptype <;> cases out <;>
      simp [test_proxy, test_proxy_body, hsupp]
  · intro e he
    simp [test_proxy, he]

/-- Witness for C8: a supported descriptor succeeds on completion and
returns `false` when the transport raises. -/
theorem probe_total_iff_witness :
    test_proxy proxyCred ConnectOutcome.completed = true ∧
    test_proxy proxyCred (ConnectOutcome.raised "boom") = false :=
  ⟨(probe_total_iff proxyCred ConnectOutcome.completed).1.mpr ⟨by decide, rfl⟩,
   (probe_total_iff proxyCred (ConnectOutcome.raised "boom")).2 "boom" rfl⟩

/-- C10: `_set_proxy_for_session` sets the `http` and `https` proxy
entries to the same URL, formed with the descriptor's own (lower-cased)
scheme; the URL embeds `username:password@` when the descriptor has both
keys, and is credential-free when either key is missing. -/
theorem bind_credentials (p : ProxyInfo) (idx : Nat) :
    (set_proxy_for_session p idx).httpsProxy = (set_proxy_for_session p idx).httpProxy ∧
    (∀ u pw, p.username = some u → p.password = some pw →
      (set_proxy_for_session p idx).httpProxy =
        lowerAscii p.ptype ++ "://" ++ u ++ ":" ++ pw ++ "@" ++ p.address ++ ":" ++
          toString p.port) ∧
    ((p.username = none ∨ p.password = none) →
      (set_proxy_for_session p idx).httpProxy =
        lowerAscii p.ptype ++ "://" ++ p.address ++ ":" ++ toString p.port) := by
  refine ⟨rfl, ?_, ?_⟩
  · intro u pw hu hpw
    simp [set_proxy_for_session, proxyUrl, hu, hpw]
  · intro h
    rcases h with h | h
    · simp [set_proxy_for_session, proxyUrl, h]
    · cases hu : p.username <;> simp [set_proxy_for_session, proxyUrl, h, hu]

/-- Witness for C10: a both-credentials descriptor gets `user:pass@` in the
URL, a username-only descriptor gets the credential-free URL. -/
theorem bind_credentials_witness :
    (set_proxy_for_session proxyCred 2).httpProxy =
      lowerAscii "SOCKS5" ++ "://" ++ "u" ++ ":" ++ "pw" ++ "@" ++ "host" ++ ":" ++
        toString 1080 ∧
    (set_proxy_for_session proxyNoCred 0).httpProxy =
      lowerAscii "http" ++ "://" ++ "host" ++ ":" ++ toString 8080 :=
  ⟨(bind_credentials proxyCred 2).2.1 "u" "pw" rfl rfl,
   (bind_credentials proxyNoCred 0).2.2 (Or.inr rfl)⟩

end BinanceCore
